import Mathlib

/-!
Shallow embedding of the aiofmp MCP layer (src/aiofmp/mcp_tools.py,
src/aiofmp/mcp_server.py, src/aiofmp/search.py) and proofs about it.

Python scalar values are modelled by an inductive type, Python exceptions by
explicit error values (Except), and the relevant builtins (int(), str.strip,
str.upper, str.split, truthiness) by executable Lean functions restricted to
ASCII text, which covers every input exercised here.
-/

/-- Python scalar values as they occur in this code base.  Bool is kept
separate from Int because Python isinstance treats bool as a subclass of int. -/
inductive PyVal where
  | none
  | bool (b : Bool)
  | int (n : Int)
  | float (q : ℚ)
  | str (s : String)
deriving DecidableEq, Repr

/-- Python truthiness, as used by `if not symbol` and `if not date_str`. -/
def PyVal.truthy : PyVal → Bool
  | .none => false
  | .bool b => b
  | .int n => n ≠ 0
  | .float q => q ≠ 0
  | .str s => s ≠ ""

/-- Python `isinstance(v, int)`; bool is a subclass of int. -/
def PyVal.isInstInt : PyVal → Bool
  | .int _ => true
  | .bool _ => true
  | _ => false

/-- Python `isinstance(v, str)`. -/
def PyVal.isInstStr : PyVal → Bool
  | .str _ => true
  | _ => false

/-- Numeric value of an int-instance (bool converts as 0/1). -/
def PyVal.intVal : PyVal → Int
  | .int n => n
  | .bool b => if b then 1 else 0
  | _ => 0

/-- String payload of a str value. -/
def PyVal.strVal : PyVal → String
  | .str s => s
  | _ => ""

/-- Kind of a raised Python exception, distinguishing what the various
`except` clauses in the code catch: `except Exception` catches only
`exception`; KeyboardInterrupt and the remaining BaseExceptions
(SystemExit, GeneratorExit) are never errors and pass through it. -/
inductive ExcKind where
  | exception
  | keyboardInterrupt
  | otherBase
deriving DecidableEq, Repr

/-- A raised Python exception: its kind and its `str(e)` text. -/
structure PyBaseException where
  kind : ExcKind
  msg : String
deriving DecidableEq, Repr

/-- Whether the exception derives from `Exception` (so `except Exception`
catches it).  Every Python error class does. -/
def PyBaseException.isException (e : PyBaseException) : Bool :=
  e.kind = ExcKind.exception

/-- Exceptions the embedded library functions raise themselves. -/
inductive PyErr where
  | valueError (msg : String)
  | zeroDivisionError
deriving DecidableEq, Repr

/- Python whitespace and int() parsing, restricted to ASCII. -/

/-- ASCII whitespace as recognised by Python str.strip() and int(). -/
def isPySpace (c : Char) : Bool :=
  c = ' ' || c = '\t' || c = '\n' || c = '\x0d' || c = '\x0b' || c = '\x0c'

/-- Strip leading and trailing Python whitespace from a character list. -/
def pyStripL (l : List Char) : List Char :=
  ((l.dropWhile isPySpace).reverse.dropWhile isPySpace).reverse

/-- Python str.strip() on strings. -/
def pyStrip (s : String) : String :=
  ⟨pyStripL s.data⟩

/-- Python str.upper() (ASCII). -/
def pyUpper (s : String) : String :=
  ⟨s.data.map Char.toUpper⟩

/-- Tail of a Python integer literal after its first digit: digits with
single underscores allowed between digits. -/
def digitTailOk : List Char → Bool
  | [] => true
  | '_' :: c :: rest => c.isDigit && digitTailOk rest
  | c :: rest => c.isDigit && digitTailOk rest

/-- Python digit part: one digit, then digits with embedded underscores. -/
def digitsOk : List Char → Bool
  | [] => false
  | c :: rest => c.isDigit && digitTailOk rest

/-- Whether Python `int(s)` succeeds: optional surrounding whitespace, an
optional sign, then a valid digit part. -/
def pyIntOkL (l : List Char) : Bool :=
  match pyStripL l with
  | '+' :: rest => digitsOk rest
  | '-' :: rest => digitsOk rest
  | rest => digitsOk rest

/-- Whether Python `int(s)` succeeds on a string. -/
def pyIntOk (s : String) : Bool :=
  pyIntOkL s.data

/-- Magnitude of a digit part, skipping underscores. -/
def digitsVal (l : List Char) : Int :=
  l.foldl (fun acc c => if c = '_' then acc else acc * 10 + ((c.toNat : Int) - 48)) 0

/-- Python `int(s)`: the parsed integer, or the ValueError int() raises. -/
def pyInt (s : String) : Except PyErr Int :=
  if pyIntOk s then
    match pyStripL s.data with
    | '+' :: rest => .ok (digitsVal rest)
    | '-' :: rest => .ok (-(digitsVal rest))
    | rest => .ok (digitsVal rest)
  else
    .error (PyErr.valueError ("invalid literal for int with base 10: " ++ s))

/- mcp_tools.py: response envelope and error wrapper. -/

/-- The tool response envelope built by create_tool_response: the data field
is always present (PyVal.none models Python None), the message field is a
dictionary key only when set. -/
structure ToolResponse where
  success : Bool
  data : PyVal
  message : Option String
deriving DecidableEq, Repr

/-- Embedding of create_tool_response: data and success always stored, the
message key added only when the message string is truthy (non-empty). -/
def create_tool_response (data : PyVal) (success : Bool) (message : String) : ToolResponse :=
  { success := success
    data := data
    message := if message = "" then none else some message }

/-- Embedding of the wrapper produced by the handle_async_operation
decorator, applied to the outcome of one call of the wrapped coroutine: a
returned value yields a success envelope; a raised exception caught by
`except Exception` yields a failure envelope with a prefixed message; any
other raised BaseException propagates. -/
def handle_async_operation (operation_name : String)
    (result : Except PyBaseException PyVal) : Except PyBaseException ToolResponse :=
  match result with
  | .ok v => .ok (create_tool_response v true "")
  | .error e =>
      if e.isException then
        .ok (create_tool_response PyVal.none false
          ("Error in " ++ operation_name ++ ": " ++ e.msg))
      else
        .error e

/- mcp_tools.py: validators. -/

/-- Embedding of validate_symbol: falsy or non-string input is rejected,
then the symbol is stripped and upper-cased, and rejected if that leaves
nothing. -/
def validate_symbol (symbol : PyVal) : Except PyErr String :=
  if !symbol.truthy || !symbol.isInstStr then
    .error (.valueError "Symbol must be a non-empty string")
  else
    let normalized := pyUpper (pyStrip symbol.strVal)
    if normalized = "" then
      .error (.valueError "Symbol cannot be empty")
    else
      .ok normalized

/-- Python str.split on a single dash, keeping empty pieces. -/
def splitDash : List Char → List (List Char)
  | [] => [[]]
  | c :: rest =>
      if c = '-' then
        [] :: splitDash rest
      else
        match splitDash rest with
        | [] => [[c]]
        | p :: ps => (c :: p) :: ps

/-- Embedding of validate_date: falsy input (None or the empty string)
returns None; non-strings are rejected; then the guard demands exactly 10
characters containing exactly two dashes, and the three dash-split pieces
must each parse as Python integers; on success the string itself is
returned. -/
def validate_date (date_str : PyVal) : Except PyErr PyVal :=
  if !date_str.truthy then
    .ok PyVal.none
  else if !date_str.isInstStr then
    .error (.valueError "Date must be a string")
  else
    let s := date_str.strVal
    if s.length ≠ 10 || s.data.count '-' ≠ 2 then
      .error (.valueError "Date must be in YYYY-MM-DD format")
    else
      match splitDash s.data with
      | [y, m, d] =>
          if pyIntOkL y && pyIntOkL m && pyIntOkL d then
            .ok (PyVal.str s)
          else
            .error (.valueError "Date must be in YYYY-MM-DD format")
      | _ => .error (.valueError "Date must be in YYYY-MM-DD format")

/-- Embedding of validate_limit: None passes through, non-int instances are
rejected, then the 1..10000 bounds are enforced and the value returned
unchanged. -/
def validate_limit (limit : PyVal) : Except PyErr PyVal :=
  match limit with
  | .none => .ok .none
  | v =>
      if !v.isInstInt then
        .error (.valueError "Limit must be an integer")
      else if v.intVal ≤ 0 then
        .error (.valueError "Limit must be positive")
      else if v.intVal > 10000 then
        .error (.valueError "Limit cannot exceed 10000")
      else
        .ok v

/-- The acceptance condition validate_date actually implements on a
non-empty string: exactly 10 characters, exactly two dashes anywhere, and
every dash-delimited piece parseable by Python int(). -/
def codeDateOk (s : String) : Bool :=
  s.length = 10 && s.data.count '-' = 2 && (splitDash s.data).all pyIntOkL

/-- The DDDD-DD-DD shape as the claim words it: exactly 10 characters, the
two hyphen separators at the fixed positions 4 and 7, and the three
dash-delimited components parseable as integers. -/
def specDateShape (s : String) : Bool :=
  s.length = 10
    && s.data.getD 4 ' ' = '-'
    && s.data.getD 7 ' ' = '-'
    && pyIntOkL (s.data.take 4)
    && pyIntOkL ((s.data.drop 5).take 2)
    && pyIntOkL (s.data.drop 8)

/- search.py: the parameter mappings the SearchCategory methods build and
pass to the base client.  Each method is `params building; delegate`; the
delegation is outside this embedding, so each method is embedded as the
function from its arguments to the params mapping, an ordered key/value
list mirroring Python dict insertion order. -/

/-- One conditional insertion `if x is not None: params[k] = f(x)`. -/
def optEntry {α : Type} (k : String) (o : Option α) (f : α → PyVal) : List (String × PyVal) :=
  match o with
  | some v => [(k, f v)]
  | none => []

/-- Params mapping built by SearchCategory.symbols. -/
def symbols_params (query : String) (limit : Option Int) (exchange : Option String) :
    List (String × PyVal) :=
  [("query", PyVal.str query)]
    ++ optEntry "limit" limit PyVal.int
    ++ optEntry "exchange" exchange PyVal.str

/-- Params mapping built by SearchCategory.companies. -/
def companies_params (query : String) (limit : Option Int) (exchange : Option String) :
    List (String × PyVal) :=
  [("query", PyVal.str query)]
    ++ optEntry "limit" limit PyVal.int
    ++ optEntry "exchange" exchange PyVal.str

/-- Keyword arguments of SearchCategory.screener, all optional. -/
structure ScreenerArgs where
  market_cap_more_than : Option ℚ
  market_cap_lower_than : Option ℚ
  sector : Option String
  industry : Option String
  beta_more_than : Option ℚ
  beta_lower_than : Option ℚ
  price_more_than : Option ℚ
  price_lower_than : Option ℚ
  dividend_more_than : Option ℚ
  dividend_lower_than : Option ℚ
  volume_more_than : Option Int
  volume_lower_than : Option Int
  exchange : Option String
  country : Option String
  is_etf : Option Bool
  is_fund : Option Bool
  is_actively_trading : Option Bool
  limit : Option Int
  include_all_share_classes : Option Bool
deriving DecidableEq, Repr

/-- Params mapping built by SearchCategory.screener, in source order,
holding a key exactly when the code executed the matching insertion. -/
def screener_params (a : ScreenerArgs) : List (String × PyVal) :=
  optEntry "marketCapMoreThan" a.market_cap_more_than PyVal.float
    ++ optEntry "marketCapLowerThan" a.market_cap_lower_than PyVal.float
    ++ optEntry "sector" a.sector PyVal.str
    ++ optEntry "industry" a.industry PyVal.str
    ++ optEntry "betaMoreThan" a.beta_more_than PyVal.float
    ++ optEntry "betaLowerThan" a.beta_lower_than PyVal.float
    ++ optEntry "priceMoreThan" a.price_more_than PyVal.float
    ++ optEntry "priceLowerThan" a.price_lower_than PyVal.float
    ++ optEntry "dividendMoreThan" a.dividend_more_than PyVal.float
    ++ optEntry "dividendLowerThan" a.dividend_lower_than PyVal.float
    ++ optEntry "volumeMoreThan" a.volume_more_than PyVal.int
    ++ optEntry "volumeLowerThan" a.volume_lower_than PyVal.int
    ++ optEntry "exchange" a.exchange PyVal.str
    ++ optEntry "country" a.country PyVal.str
    ++ optEntry "isEtf" a.is_etf PyVal.bool
    ++ optEntry "isFund" a.is_fund PyVal.bool
    ++ optEntry "isActivelyTrading" a.is_actively_trading PyVal.bool
    ++ optEntry "limit" a.limit PyVal.int
    ++ optEntry "includeAllShareClasses" a.include_all_share_classes PyVal.bool

/- mcp_tools.py: create_summary_stats. -/

/-- A data item: a mapping from keys to numeric-or-null values; a key bound
to Option.none models an explicit Python None value. -/
def Row : Type := List (String × Option ℚ)

/-- Python `item.get(key)`: None both for a missing key and a None value. -/
def dictGet (item : Row) (key : String) : Option ℚ :=
  match List.find? (fun p => p.1 == key) item with
  | some p => p.2
  | Option.none => Option.none

/-- The list comprehension
`[item.get(key) for item in data if item.get(key) is not None]`. -/
def extractValues (data : List Row) (key : String) : List ℚ :=
  data.filterMap (fun item => dictGet item key)

/-- The summary dictionary returned by create_summary_stats. -/
structure SummaryStats where
  count : Nat
  min : Option ℚ
  max : Option ℚ
  avg : Option ℚ
deriving DecidableEq, Repr

/-- Python division, raising ZeroDivisionError on a zero divisor. -/
def pyDiv (a b : ℚ) : Except PyErr ℚ :=
  if b = 0 then .error PyErr.zeroDivisionError else .ok (a / b)

/-- Embedding of create_summary_stats: empty data short-circuits, then the
non-null values at the key are extracted; if none remain the original
length is reported; otherwise count, min, max and sum/len are computed,
with the division embedded as fallible exactly as in Python. -/
def create_summary_stats (data : List Row) (key : String) : Except PyErr SummaryStats :=
  if data.isEmpty then
    .ok ⟨0, Option.none, Option.none, Option.none⟩
  else
    match extractValues data key with
    | [] => .ok ⟨data.length, Option.none, Option.none, Option.none⟩
    | v :: vs =>
        match pyDiv ((v :: vs).sum) ((v :: vs).length : ℚ) with
        | .error e => .error e
        | .ok avg =>
            .ok ⟨(v :: vs).length, some (vs.foldl min v), some (vs.foldl max v), some avg⟩

/- mcp_server.py: run_server. -/

/-- The environment variables run_server reads; a field is none when the
variable is unset. -/
structure ServerEnv where
  mcp_transport : Option String
  mcp_host : Option String
  mcp_port : Option String
  fmp_api_key : Option String
deriving DecidableEq, Repr

/-- Observable outcome of run_server: a process exit with a status code, a
serving loop started on one of the two transports, or an uncaught
BaseException propagating out. -/
inductive ServerOutcome where
  | exited (code : Nat)
  | servedStdio
  | servedHttp (host : String) (port : Int)
deriving DecidableEq, Repr

/-- Result of one run_server execution: its outcome and whether
register_tools was invoked. -/
structure RunResult where
  outcome : ServerOutcome
  registerCalled : Bool
deriving DecidableEq, Repr

/-- How a caught BaseException ends run_server: KeyboardInterrupt is caught
and logged (clean return, process exit 0 via main), an Exception triggers
sys.exit(1); other BaseExceptions cannot arise from the modelled calls. -/
def excExit (e : PyBaseException) : ServerOutcome :=
  match e.kind with
  | ExcKind.keyboardInterrupt => .exited 0
  | _ => .exited 1

/-- Embedding of run_server.  Statement order follows the source: the
transport string is read and lower-cased, the port is int-parsed (a
ValueError here is caught by the enclosing `except Exception` and turns
into sys.exit(1)), then the API key is checked for presence and truthiness
(absence or emptiness gives sys.exit(1) before any registration), then
register_tools runs — its outcome is the registerResult parameter — and
finally the serving loop runs on the selected transport, its outcome the
serveResult parameter. -/
def run_server (env : ServerEnv) (registerResult : Except PyBaseException Unit)
    (serveResult : Except PyBaseException Unit) : RunResult :=
  let transport := (env.mcp_transport.getD "stdio").toLower
  match pyInt (env.mcp_port.getD "3000") with
  | .error _ => ⟨.exited 1, false⟩
  | .ok port =>
      match env.fmp_api_key with
      | Option.none => ⟨.exited 1, false⟩
      | some key =>
          if key = "" then ⟨.exited 1, false⟩
          else
            match registerResult with
            | .error e => ⟨excExit e, true⟩
            | .ok _ =>
                match serveResult with
                | .error e => ⟨excExit e, true⟩
                | .ok _ =>
                    if transport = "http" then
                      ⟨.servedHttp (env.mcp_host.getD "localhost") port, true⟩
                    else
                      ⟨.servedStdio, true⟩

/- Helper lemmas. -/

/-- A string starting with the fixed error prefix is never empty. -/
theorem error_msg_ne_empty (o m : String) : ("Error in " ++ o ++ ": " ++ m) ≠ "" := by
  intro h
  have hlen := congrArg String.length h
  rw [String.length_append, String.length_append, String.length_append] at hlen
  have h9 : ("Error in " : String).length = 9 := rfl
  have h0 : ("" : String).length = 0 := rfl
  omega

/-- Packing a character list into a string gives the empty string exactly
for the empty list. -/
theorem mkStr_eq_empty_iff (l : List Char) : (⟨l⟩ : String) = "" ↔ l = [] := by
  constructor
  · intro h
    have := congrArg String.data h
    simpa using this
  · intro h
    subst h
    rfl

/-- Stripping yields the empty list exactly when every character is
whitespace. -/
theorem pyStripL_eq_nil_iff (l : List Char) :
    pyStripL l = [] ↔ ∀ c ∈ l, isPySpace c = true := by
  unfold pyStripL
  rw [List.reverse_eq_nil_iff, List.dropWhile_eq_nil_iff]
  constructor
  · intro h c hc
    rcases List.mem_append.mp
        ((List.takeWhile_append_dropWhile (p := isPySpace) (l := l)) ▸ hc) with h1 | h1
    · exact List.mem_takeWhile_imp h1
    · exact h c (List.mem_reverse.mpr h1)
  · intro h c hc
    exact h c ((List.dropWhile_suffix isPySpace).subset (List.mem_reverse.mp hc))

/-- Python strip returns the empty string exactly on all-whitespace input. -/
theorem pyStrip_eq_empty_iff (s : String) :
    pyStrip s = "" ↔ ∀ c ∈ s.data, isPySpace c = true := by
  rw [pyStrip, mkStr_eq_empty_iff, pyStripL_eq_nil_iff]

/-- Upper-casing preserves emptiness. -/
theorem pyUpper_eq_empty_iff (s : String) : pyUpper s = "" ↔ s = "" := by
  rw [pyUpper, mkStr_eq_empty_iff, List.map_eq_nil_iff]
  constructor
  · intro h
    cases s
    simp_all
  · intro h
    subst h
    rfl

/-- splitDash always yields at least one piece. -/
theorem splitDash_ne_nil (l : List Char) : splitDash l ≠ [] := by
  induction l with
  | nil => simp [splitDash]
  | cons c rest ih =>
      by_cases h : c = '-'
      · simp [splitDash, h]
      · simp only [splitDash, if_neg h]
        cases hs : splitDash rest with
        | nil => simp
        | cons p ps => simp

/-- splitDash yields one more piece than there are dashes. -/
theorem splitDash_length (l : List Char) :
    (splitDash l).length = l.count '-' + 1 := by
  induction l with
  | nil => simp [splitDash]
  | cons c rest ih =>
      by_cases h : c = '-'
      · subst h
        simp [splitDash, List.count_cons, ih]
      · simp only [splitDash, if_neg h]
        cases hs : splitDash rest with
        | nil => exact absurd hs (splitDash_ne_nil rest)
        | cons p ps =>
            rw [hs] at ih
            simp only [List.length_cons] at ih ⊢
            rw [List.count_cons]
            simp [h, ih]

/-- A left min-fold is bounded by its initial value. -/
theorem foldl_min_le_init (l : List ℚ) (a : ℚ) : l.foldl min a ≤ a := by
  induction l generalizing a with
  | nil => simp
  | cons x xs ih =>
      calc (x :: xs).foldl min a = xs.foldl min (min a x) := rfl
        _ ≤ min a x := ih _
        _ ≤ a := min_le_left _ _

/-- A left min-fold is bounded by every list element. -/
theorem foldl_min_le_mem (l : List ℚ) : ∀ a x, x ∈ l → l.foldl min a ≤ x := by
  induction l with
  | nil =>
      intro a x hx
      cases hx
  | cons y ys ih =>
      intro a x hx
      rcases List.mem_cons.mp hx with h | h
      · subst h
        exact le_trans (foldl_min_le_init ys (min a x)) (min_le_right a x)
      · exact ih (min a y) x h

/-- A left min-fold returns its initial value or a list element. -/
theorem foldl_min_mem (l : List ℚ) : ∀ a, l.foldl min a = a ∨ l.foldl min a ∈ l := by
  induction l with
  | nil =>
      intro a
      exact Or.inl rfl
  | cons y ys ih =>
      intro a
      rcases ih (min a y) with h | h
      · rcases min_choice a y with hc | hc
        · left
          calc (y :: ys).foldl min a = ys.foldl min (min a y) := rfl
            _ = min a y := h
            _ = a := hc
        · right
          have heq : (y :: ys).foldl min a = y :=
            calc (y :: ys).foldl min a = ys.foldl min (min a y) := rfl
              _ = min a y := h
              _ = y := hc
          rw [heq]
          exact List.mem_cons_self y ys
      · right
        exact List.mem_cons_of_mem y h

/-- A left max-fold is bounded below by its initial value. -/
theorem foldl_max_ge_init (l : List ℚ) (a : ℚ) : a ≤ l.foldl max a := by
  induction l generalizing a with
  | nil => simp
  | cons x xs ih =>
      calc a ≤ max a x := le_max_left _ _
        _ ≤ xs.foldl max (max a x) := ih _
        _ = (x :: xs).foldl max a := rfl

/-- A left max-fold is bounded below by every list element. -/
theorem foldl_max_ge_mem (l : List ℚ) : ∀ a x, x ∈ l → x ≤ l.foldl max a := by
  induction l with
  | nil =>
      intro a x hx
      cases hx
  | cons y ys ih =>
      intro a x hx
      rcases List.mem_cons.mp hx with h | h
      · subst h
        exact le_trans (le_max_right a x) (foldl_max_ge_init ys (max a x))
      · exact ih (max a y) x h

/-- A left max-fold returns its initial value or a list element. -/
theorem foldl_max_mem (l : List ℚ) : ∀ a, l.foldl max a = a ∨ l.foldl max a ∈ l := by
  induction l with
  | nil =>
      intro a
      exact Or.inl rfl
  | cons y ys ih =>
      intro a
      rcases ih (max a y) with h | h
      · rcases max_choice a y with hc | hc
        · left
          calc (y :: ys).foldl max a = ys.foldl max (max a y) := rfl
            _ = max a y := h
            _ = a := hc
        · right
          have heq : (y :: ys).foldl max a = y :=
            calc (y :: ys).foldl max a = ys.foldl max (max a y) := rfl
              _ = max a y := h
              _ = y := hc
          rw [heq]
          exact List.mem_cons_self y ys
      · right
        exact List.mem_cons_of_mem y h

/-- Key membership for one conditional insertion. -/
theorem mem_keys_optEntry {α : Type} (k k2 : String) (o : Option α) (f : α → PyVal) :
    k ∈ (optEntry k2 o f).map Prod.fst ↔ (k = k2 ∧ o ≠ Option.none) := by
  cases o <;> simp [optEntry]

/-- Key membership for one conditional insertion, existential form. -/
theorem pair_mem_optEntry {α : Type} (k k2 : String) (o : Option α) (f : α → PyVal) :
    (∃ x, (k, x) ∈ optEntry k2 o f) ↔ (k = k2 ∧ o ≠ Option.none) := by
  cases o <;> simp [optEntry]

/- Claim theorems. -/

/-- C1, counterexample: called directly with success set to false, non-null
data and an empty message argument, create_tool_response yields an envelope
whose success flag is false, whose data is not null and which carries no
message, so the claimed invariant does not hold over every combination of
arguments of the tool-response layer. -/
theorem create_tool_response_counterexample :
    (create_tool_response (PyVal.int 5) false "").success = false
    ∧ ¬ (create_tool_response (PyVal.int 5) false "").data = PyVal.none
    ∧ (create_tool_response (PyVal.int 5) false "").message = Option.none := by
  decide

/-- C1 (amended): every envelope the handle_async_operation wrapper
returns with success set to false has null data and a present, non-empty
message; create_tool_response alone does not enforce this for arbitrary
argument combinations. -/
theorem tool_envelope_invariant (opName : String) (result : Except PyBaseException PyVal)
    (resp : ToolResponse) (h : handle_async_operation opName result = Except.ok resp)
    (hf : resp.success = false) :
    resp.data = PyVal.none ∧ ∃ m, resp.message = some m ∧ m ≠ "" := by
  cases result with
  | ok v =>
      have hresp : create_tool_response v true "" = resp := by
        simpa [handle_async_operation] using h
      rw [← hresp] at hf
      simp [create_tool_response] at hf
  | error e =>
      cases hek : e.isException with
      | false =>
          simp [handle_async_operation, hek] at h
      | true =>
          have hresp :
              create_tool_response PyVal.none false
                ("Error in " ++ opName ++ ": " ++ e.msg) = resp := by
            simpa [handle_async_operation, hek] using h
          rw [← hresp]
          refine ⟨rfl, "Error in " ++ opName ++ ": " ++ e.msg, ?_,
            error_msg_ne_empty opName e.msg⟩
          simp [create_tool_response, error_msg_ne_empty opName e.msg]

/-- C1 witness: the invariant instantiated at a concrete failed operation. -/
theorem tool_envelope_invariant_witness :
    (ToolResponse.mk false PyVal.none (some "Error in op: boom")).data = PyVal.none
    ∧ ∃ m, (ToolResponse.mk false PyVal.none (some "Error in op: boom")).message = some m
        ∧ m ≠ "" :=
  tool_envelope_invariant "op" (Except.error ⟨ExcKind.exception, "boom"⟩)
    (ToolResponse.mk false PyVal.none (some "Error in op: boom")) rfl rfl

/-- C3: the wrapper built by handle_async_operation never re-raises an
error: when the wrapped operation returns a value the wrapper returns a
success envelope holding it, and when the operation raises an error (in
Python every error class derives from Exception, the hypothesis here) the
wrapper returns a failure envelope with null data and a non-empty message
instead of propagating. -/
theorem handle_async_no_propagation (opName : String) (result : Except PyBaseException PyVal)
    (h : ∀ e, result = Except.error e → e.isException = true) :
    ∃ resp, handle_async_operation opName result = Except.ok resp
      ∧ ((∃ v, result = Except.ok v ∧ resp.success = true ∧ resp.data = v
            ∧ resp.message = Option.none)
        ∨ (∃ e, result = Except.error e ∧ resp.success = false ∧ resp.data = PyVal.none
            ∧ ∃ m, resp.message = some m ∧ m ≠ "")) := by
  cases result with
  | ok v =>
      refine ⟨create_tool_response v true "", rfl, Or.inl ⟨v, rfl, rfl, rfl, ?_⟩⟩
      simp [create_tool_response]
  | error e =>
      have he := h e rfl
      refine ⟨create_tool_response PyVal.none false ("Error in " ++ opName ++ ": " ++ e.msg),
        ?_, Or.inr ⟨e, rfl, rfl, rfl, "Error in " ++ opName ++ ": " ++ e.msg, ?_,
          error_msg_ne_empty opName e.msg⟩⟩
      · simp [handle_async_operation, he]
      · simp [create_tool_response, error_msg_ne_empty opName e.msg]

/-- C3 witness: the wrapper instantiated at a concrete raising operation. -/
theorem handle_async_no_propagation_witness :
    ∃ resp, handle_async_operation "fetch" (Except.error ⟨ExcKind.exception, "timeout"⟩)
        = Except.ok resp
      ∧ ((∃ v, (Except.error ⟨ExcKind.exception, "timeout"⟩ : Except PyBaseException PyVal)
              = Except.ok v ∧ resp.success = true
            ∧ resp.data = v ∧ resp.message = Option.none)
        ∨ (∃ e, (Except.error ⟨ExcKind.exception, "timeout"⟩ : Except PyBaseException PyVal)
              = Except.error e ∧ resp.success = false ∧ resp.data = PyVal.none
            ∧ ∃ m, resp.message = some m ∧ m ≠ "")) :=
  handle_async_no_propagation "fetch" (Except.error ⟨ExcKind.exception, "timeout"⟩)
    (by
      intro e he
      cases he
      rfl)

/-- C5: validate_symbol maps every string holding at least one
non-whitespace character to its stripped, upper-cased form, fails on empty
or all-whitespace strings, and fails on every non-string value. -/
theorem validate_symbol_spec (v : PyVal) :
    (∀ s, v = PyVal.str s →
      ((∃ c ∈ s.data, isPySpace c = false) →
          validate_symbol v = Except.ok (pyUpper (pyStrip s)))
      ∧ ((∀ c ∈ s.data, isPySpace c = true) →
          ∃ m, validate_symbol v = Except.error m))
    ∧ (v.isInstStr = false → ∃ m, validate_symbol v = Except.error m) := by
  constructor
  · rintro s rfl
    constructor
    · rintro ⟨c, hc, hcs⟩
      have hne : s ≠ "" := by
        intro h
        subst h
        simp at hc
      have hstrip : pyStrip s ≠ "" := by
        rw [Ne, pyStrip_eq_empty_iff]
        intro hall
        rw [hall c hc] at hcs
        cases hcs
      have hnorm : pyUpper (pyStrip s) ≠ "" := by
        rw [Ne, pyUpper_eq_empty_iff]
        exact hstrip
      simp [validate_symbol, PyVal.truthy, PyVal.isInstStr, PyVal.strVal, hne, hnorm]
    · intro hall
      by_cases hse : s = ""
      · subst hse
        exact ⟨PyErr.valueError "Symbol must be a non-empty string", rfl⟩
      · have hstrip : pyStrip s = "" := (pyStrip_eq_empty_iff s).mpr hall
        have hnorm : pyUpper (pyStrip s) = "" := by
          rw [hstrip]
          rfl
        refine ⟨PyErr.valueError "Symbol cannot be empty", ?_⟩
        simp [validate_symbol, PyVal.truthy, PyVal.isInstStr, PyVal.strVal, hse, hnorm]
  · intro hns
    cases v <;> simp_all [validate_symbol, PyVal.isInstStr, PyVal.truthy]

/-- C5 witness: a padded lower-case symbol is normalized. -/
theorem validate_symbol_spec_witness :
    validate_symbol (PyVal.str " aapl ") = Except.ok "AAPL" := by
  have h := ((validate_symbol_spec (PyVal.str " aapl ")).1 " aapl " rfl).1 (by decide)
  rw [h]
  rfl

/-- C6, counterexample: None is not an integer yet validate_limit does not
raise on it — it returns None — so the claimed exact characterization of
the failing inputs is false at the input None. -/
theorem validate_limit_counterexample :
    validate_limit PyVal.none = Except.ok PyVal.none
    ∧ PyVal.none.isInstInt = false
    ∧ ¬ ∃ m, validate_limit PyVal.none = Except.error m := by
  refine ⟨rfl, rfl, ?_⟩
  rintro ⟨m, hm⟩
  cases hm

/-- C6 (amended): over non-None inputs, validate_limit raises exactly for
non-integer instances, integers at most 0 and integers above 10000, and
returns every integer in 1..10000 unchanged (Python bools count as
integer instances, with values 0 and 1). -/
theorem validate_limit_spec (v : PyVal) (hv : v ≠ PyVal.none) :
    (validate_limit v = Except.ok v ↔
      (v.isInstInt = true ∧ 1 ≤ v.intVal ∧ v.intVal ≤ 10000))
    ∧ ((∃ m, validate_limit v = Except.error m) ↔
      (v.isInstInt = false ∨ v.intVal ≤ 0 ∨ 10000 < v.intVal)) := by
  cases v with
  | none => exact absurd rfl hv
  | bool b =>
      cases b <;> constructor <;>
        simp [validate_limit, PyVal.isInstInt, PyVal.intVal]
  | int n =>
      rcases le_or_lt n 0 with h1 | h1
      · have hr : validate_limit (PyVal.int n)
            = Except.error (PyErr.valueError "Limit must be positive") := by
          simp [validate_limit, PyVal.isInstInt, PyVal.intVal, h1]
        constructor
        · rw [hr]
          simp [PyVal.isInstInt, PyVal.intVal]
          omega
        · rw [hr]
          simp [PyVal.isInstInt, PyVal.intVal]
          omega
      · rcases le_or_lt n 10000 with h2 | h2
        · have hr : validate_limit (PyVal.int n) = Except.ok (PyVal.int n) := by
            simp [validate_limit, PyVal.isInstInt, PyVal.intVal, h1, h2,
              show ¬ n ≤ 0 by omega, show ¬ 10000 < n by omega]
          constructor
          · rw [hr]
            simp [PyVal.isInstInt, PyVal.intVal]
            omega
          · rw [hr]
            simp [PyVal.isInstInt, PyVal.intVal]
            omega
        · have hr : validate_limit (PyVal.int n)
              = Except.error (PyErr.valueError "Limit cannot exceed 10000") := by
            simp [validate_limit, PyVal.isInstInt, PyVal.intVal,
              show ¬ n ≤ 0 by omega, h2]
          constructor
          · rw [hr]
            simp [PyVal.isInstInt, PyVal.intVal]
            omega
          · rw [hr]
            simp [PyVal.isInstInt, PyVal.intVal]
            omega
  | float q =>
      constructor <;> simp [validate_limit, PyVal.isInstInt, PyVal.intVal]
  | str s =>
      constructor <;> simp [validate_limit, PyVal.isInstInt, PyVal.intVal]

/-- C6 witness: the largest allowed limit passes through unchanged. -/
theorem validate_limit_spec_witness :
    validate_limit (PyVal.int 10000) = Except.ok (PyVal.int 10000) :=
  ((validate_limit_spec (PyVal.int 10000) (by simp)).1).mpr (by decide)

/-- On a non-empty string, validate_date succeeds (returning the string)
exactly when the implemented acceptance condition holds, and raises
otherwise. -/
theorem validate_date_chars (s : String) (hs : s ≠ "") :
    (codeDateOk s = true ∧ validate_date (PyVal.str s) = Except.ok (PyVal.str s))
    ∨ (codeDateOk s = false ∧ ∃ m, validate_date (PyVal.str s) = Except.error m) := by
  by_cases h10 : s.length = 10
  · by_cases h2 : s.data.count '-' = 2
    · have hlen : (splitDash s.data).length = 3 := by
        rw [splitDash_length, h2]
      obtain ⟨y, m, d, hsplit⟩ := List.length_eq_three.mp hlen
      by_cases hint : (pyIntOkL y && pyIntOkL m && pyIntOkL d) = true
      · left
        rw [Bool.and_eq_true, Bool.and_eq_true] at hint
        constructor
        · simp [codeDateOk, h10, h2, hsplit, hint.1.1, hint.1.2, hint.2]
        · simp [validate_date, PyVal.truthy, PyVal.isInstStr, PyVal.strVal, hs, h10, h2,
            hsplit, hint.1.1, hint.1.2, hint.2]
      · right
        have hintf : (pyIntOkL y && pyIntOkL m && pyIntOkL d) = false :=
          Bool.eq_false_iff.mpr hint
        constructor
        · have hall : (splitDash s.data).all pyIntOkL = false := by
            rw [hsplit]
            simp only [List.all_cons, List.all_nil, Bool.and_true]
            rw [← Bool.and_assoc]
            exact hintf
          simp [codeDateOk, hall]
        · refine ⟨PyErr.valueError "Date must be in YYYY-MM-DD format", ?_⟩
          simp [validate_date, PyVal.truthy, PyVal.isInstStr, PyVal.strVal, hs, h10, h2,
            hsplit, hintf]
    · right
      refine ⟨?_, PyErr.valueError "Date must be in YYYY-MM-DD format", ?_⟩
      · simp [codeDateOk, h2]
      · simp [validate_date, PyVal.truthy, PyVal.isInstStr, PyVal.strVal, hs, h2]
  · right
    refine ⟨?_, PyErr.valueError "Date must be in YYYY-MM-DD format", ?_⟩
    · simp [codeDateOk, h10]
    · simp [validate_date, PyVal.truthy, PyVal.isInstStr, PyVal.strVal, hs, h10]

/-- C2, counterexample: the string of length 10 with its two hyphens away
from the fixed positions and integer-parseable pieces is not of the claimed
DDDD-DD-DD shape, yet validate_date accepts it and returns it unchanged;
and the empty string, also not of that shape, is returned as None rather
than rejected. -/
theorem validate_date_counterexample :
    specDateShape "20240-1-23" = false
    ∧ validate_date (PyVal.str "20240-1-23") = Except.ok (PyVal.str "20240-1-23")
    ∧ specDateShape "" = false
    ∧ validate_date (PyVal.str "") = Except.ok PyVal.none := by
  refine ⟨by decide, rfl, by decide, rfl⟩

/-- C2 (amended): for every string input, validate_date raises exactly when
the string is non-empty and fails the implemented acceptance condition
(exactly 10 characters, exactly two hyphens at any positions, all three
dash-delimited components Python-int-parseable); every string meeting that
condition — calendar-invalid dates included — passes through unchanged,
and the empty string yields None without raising. -/
theorem validate_date_spec (s : String) :
    (codeDateOk s = true → validate_date (PyVal.str s) = Except.ok (PyVal.str s))
    ∧ (s = "" → validate_date (PyVal.str s) = Except.ok PyVal.none)
    ∧ ((∃ m, validate_date (PyVal.str s) = Except.error m)
        ↔ s ≠ "" ∧ codeDateOk s = false) := by
  by_cases hs : s = ""
  · subst hs
    refine ⟨?_, fun _ => rfl, ?_⟩
    · intro h
      exact absurd h (by decide)
    · constructor
      · rintro ⟨m, hm⟩
        rw [show validate_date (PyVal.str "") = Except.ok PyVal.none from rfl] at hm
        cases hm
      · rintro ⟨hne, _⟩
        exact absurd rfl hne
  · rcases validate_date_chars s hs with ⟨hok, heq⟩ | ⟨hbad, m, hm⟩
    · refine ⟨fun _ => heq, fun h => absurd h hs, ?_⟩
      constructor
      · rintro ⟨m2, hm2⟩
        rw [heq] at hm2
        cases hm2
      · rintro ⟨_, hbad2⟩
        rw [hok] at hbad2
        cases hbad2
    · refine ⟨?_, fun h => absurd h hs, ?_⟩
      · intro h
        rw [hbad] at h
        cases h
      · exact ⟨fun _ => ⟨hs, hbad⟩, fun _ => ⟨m, hm⟩⟩

/-- C2 witness: the calendar-invalid date from the spec examples is
accepted and returned unchanged. -/
theorem validate_date_spec_witness :
    validate_date (PyVal.str "2024-13-45") = Except.ok (PyVal.str "2024-13-45") :=
  (validate_date_spec "2024-13-45").1 (by decide)

/-- C4: in each search-category parameter mapping the required query
argument is always present, and a key appears exactly when the matching
optional argument is set — absent (None) arguments never contribute a
key. -/
theorem search_params_spec (q : String) (lim : Option Int) (exch : Option String)
    (a : ScreenerArgs) :
    (("query", PyVal.str q) ∈ symbols_params q lim exch
      ∧ ∀ k, k ∈ (symbols_params q lim exch).map Prod.fst
          ↔ (k = "query" ∨ (k = "limit" ∧ lim ≠ Option.none)
              ∨ (k = "exchange" ∧ exch ≠ Option.none)))
    ∧ (("query", PyVal.str q) ∈ companies_params q lim exch
      ∧ ∀ k, k ∈ (companies_params q lim exch).map Prod.fst
          ↔ (k = "query" ∨ (k = "limit" ∧ lim ≠ Option.none)
              ∨ (k = "exchange" ∧ exch ≠ Option.none)))
    ∧ (∀ k, k ∈ (screener_params a).map Prod.fst
        ↔ ((k = "marketCapMoreThan" ∧ a.market_cap_more_than ≠ Option.none)
          ∨ (k = "marketCapLowerThan" ∧ a.market_cap_lower_than ≠ Option.none)
          ∨ (k = "sector" ∧ a.sector ≠ Option.none)
          ∨ (k = "industry" ∧ a.industry ≠ Option.none)
          ∨ (k = "betaMoreThan" ∧ a.beta_more_than ≠ Option.none)
          ∨ (k = "betaLowerThan" ∧ a.beta_lower_than ≠ Option.none)
          ∨ (k = "priceMoreThan" ∧ a.price_more_than ≠ Option.none)
          ∨ (k = "priceLowerThan" ∧ a.price_lower_than ≠ Option.none)
          ∨ (k = "dividendMoreThan" ∧ a.dividend_more_than ≠ Option.none)
          ∨ (k = "dividendLowerThan" ∧ a.dividend_lower_than ≠ Option.none)
          ∨ (k = "volumeMoreThan" ∧ a.volume_more_than ≠ Option.none)
          ∨ (k = "volumeLowerThan" ∧ a.volume_lower_than ≠ Option.none)
          ∨ (k = "exchange" ∧ a.exchange ≠ Option.none)
          ∨ (k = "country" ∧ a.country ≠ Option.none)
          ∨ (k = "isEtf" ∧ a.is_etf ≠ Option.none)
          ∨ (k = "isFund" ∧ a.is_fund ≠ Option.none)
          ∨ (k = "isActivelyTrading" ∧ a.is_actively_trading ≠ Option.none)
          ∨ (k = "limit" ∧ a.limit ≠ Option.none)
          ∨ (k = "includeAllShareClasses" ∧ a.include_all_share_classes ≠ Option.none))) := by
  refine ⟨⟨?_, ?_⟩, ⟨?_, ?_⟩, ?_⟩
  · simp [symbols_params]
  · intro k
    simp [symbols_params, pair_mem_optEntry]
  · simp [companies_params]
  · intro k
    simp [companies_params, pair_mem_optEntry]
  · intro k
    simp [screener_params, pair_mem_optEntry, or_assoc]

/-- The non-empty-values branch of create_summary_stats: the division
succeeds and the statistics record is produced. -/
theorem create_summary_stats_cons (data : List Row) (key : String) (v : ℚ) (vs : List ℚ)
    (h : extractValues data key = v :: vs) :
    create_summary_stats data key
      = Except.ok ⟨(v :: vs).length, some (vs.foldl min v), some (vs.foldl max v),
          some ((v :: vs).sum / ((v :: vs).length : ℚ))⟩ := by
  have hdata : data ≠ [] := by
    intro hd
    subst hd
    simp [extractValues] at h
  have hne : ((vs.length : ℚ) + 1) ≠ 0 := ne_of_gt (by positivity)
  simp [create_summary_stats, List.isEmpty_iff, hdata, h, pyDiv, hne]

/-- C7: create_summary_stats returns count 0 and null statistics on empty
input; on non-empty input whose extracted values are all missing or null it
returns the original length with null statistics; and otherwise it returns
the number of extracted values together with their minimum, maximum and
arithmetic mean. -/
theorem create_summary_stats_spec (data : List Row) (key : String) :
    (data = [] →
      create_summary_stats data key
        = Except.ok ⟨0, Option.none, Option.none, Option.none⟩)
    ∧ (data ≠ [] → extractValues data key = [] →
      create_summary_stats data key
        = Except.ok ⟨data.length, Option.none, Option.none, Option.none⟩)
    ∧ (∀ v vs, extractValues data key = v :: vs →
      ∃ m M, create_summary_stats data key
          = Except.ok ⟨(v :: vs).length, some m, some M,
              some ((v :: vs).sum / ((v :: vs).length : ℚ))⟩
        ∧ m ∈ v :: vs ∧ (∀ x ∈ v :: vs, m ≤ x)
        ∧ M ∈ v :: vs ∧ (∀ x ∈ v :: vs, x ≤ M)) := by
  refine ⟨?_, ?_, ?_⟩
  · intro h
    subst h
    rfl
  · intro hne hext
    simp [create_summary_stats, List.isEmpty_iff, hne, hext]
  · intro v vs h
    refine ⟨vs.foldl min v, vs.foldl max v, create_summary_stats_cons data key v vs h,
      ?_, ?_, ?_, ?_⟩
    · rcases foldl_min_mem vs v with h1 | h1
      · rw [h1]
        exact List.mem_cons_self v vs
      · exact List.mem_cons_of_mem v h1
    · intro x hx
      rcases List.mem_cons.mp hx with h1 | h1
      · subst h1
        exact foldl_min_le_init vs x
      · exact foldl_min_le_mem vs v x h1
    · rcases foldl_max_mem vs v with h1 | h1
      · rw [h1]
        exact List.mem_cons_self v vs
      · exact List.mem_cons_of_mem v h1
    · intro x hx
      rcases List.mem_cons.mp hx with h1 | h1
      · subst h1
        exact foldl_max_ge_init vs x
      · exact foldl_max_ge_mem vs v x h1

/-- C7 witness: the empty-input case from the spec examples. -/
theorem create_summary_stats_spec_witness :
    create_summary_stats [] "x" = Except.ok ⟨0, Option.none, Option.none, Option.none⟩ :=
  (create_summary_stats_spec [] "x").1 rfl

/-- C9: create_summary_stats never raises, in particular never the embedded
ZeroDivisionError: the division computing the average runs only in the
branch where the extracted value list is non-empty, so its divisor is
positive for every input list and key. -/
theorem create_summary_stats_no_div_error (data : List Row) (key : String) :
    ∃ stats, create_summary_stats data key = Except.ok stats := by
  by_cases hd : data = []
  · subst hd
    exact ⟨⟨0, Option.none, Option.none, Option.none⟩, rfl⟩
  · cases hext : extractValues data key with
    | nil =>
        refine ⟨⟨data.length, Option.none, Option.none, Option.none⟩, ?_⟩
        simp [create_summary_stats, List.isEmpty_iff, hd, hext]
    | cons v vs =>
        exact ⟨_, create_summary_stats_cons data key v vs hext⟩

/-- C8: when the FMP_API_KEY environment variable is absent, run_server
exits with status 1 and register_tools is never invoked, whatever the other
environment variables and whatever registration and serving would do. -/
theorem run_server_missing_key (env : ServerEnv)
    (registerResult serveResult : Except PyBaseException Unit)
    (h : env.fmp_api_key = Option.none) :
    run_server env registerResult serveResult = ⟨ServerOutcome.exited 1, false⟩ := by
  cases hp : pyInt (env.mcp_port.getD "3000") with
  | error e => simp [run_server, hp]
  | ok port => simp [run_server, hp, h]

/-- C8 witness: the fully unset environment exits with status 1 without
registering tools. -/
theorem run_server_missing_key_witness :
    run_server ⟨Option.none, Option.none, Option.none, Option.none⟩
        (Except.ok ()) (Except.ok ())
      = ⟨ServerOutcome.exited 1, false⟩ :=
  run_server_missing_key ⟨Option.none, Option.none, Option.none, Option.none⟩
    (Except.ok ()) (Except.ok ()) rfl

/-- C10: the port is int-parsed before the API-key check and before the
transport is used, so a non-integer MCP_PORT makes run_server exit with
status 1 — and skip registration — even when the API key is present and the
transport is stdio, where the port is never used. -/
theorem run_server_bad_port (env : ServerEnv)
    (registerResult serveResult : Except PyBaseException Unit) (p : String)
    (hp : env.mcp_port = some p) (hbad : pyIntOk p = false) :
    run_server env registerResult serveResult = ⟨ServerOutcome.exited 1, false⟩ := by
  have hgd : env.mcp_port.getD "3000" = p := by
    rw [hp]
    rfl
  simp [run_server, hgd, pyInt, hbad]

/-- C10 witness: stdio transport and a present API key still exit with
status 1 when MCP_PORT does not parse as an integer. -/
theorem run_server_bad_port_witness :
    run_server ⟨some "stdio", Option.none, some "abc", some "secret"⟩
        (Except.ok ()) (Except.ok ())
      = ⟨ServerOutcome.exited 1, false⟩ :=
  run_server_bad_port ⟨some "stdio", Option.none, some "abc", some "secret"⟩
    (Except.ok ()) (Except.ok ()) "abc" rfl (by decide)
